import Mathlib

/-!
Verification of the governance core of `originate-raas-core`.

Shallow embedding of the pure decision logic of the repository:
lifecycle state machine (`src/raas_core/state_machine.py`), persona
authorization (`src/tarka_core/persona_auth.py`), RBAC permission
checks (`src/raas_core/permissions.py`), hierarchy validation
(`src/raas_core/hierarchy_validation.py`) and the versioning engine
(`src/raas_core/versioning.py`).

Database sessions are modelled as explicit in-memory record lists;
`query(...).first()` becomes a first-match lookup.  Python exceptions
become `Except` values carrying the same structured fields (the
human-readable message strings and log calls are not modelled).
-/

/-- Requirement lifecycle status (`models.LifecycleStatus`, the 4-state
model of CR-004 Phase 4: draft, review, approved, deprecated). -/
inductive LifecycleStatus where
  | draft
  | review
  | approved
  | deprecated
deriving DecidableEq, Repr, Fintype

/-- The wire value of a lifecycle status (Python enum `.value`). -/
def LifecycleStatus.value : LifecycleStatus → String
  | .draft => "draft"
  | .review => "review"
  | .approved => "approved"
  | .deprecated => "deprecated"

/-- Python `LifecycleStatus(s)` constructor: parses a wire value,
`none` models the `ValueError` raised on an unknown value. -/
def LifecycleStatus.ofString (s : String) : Option LifecycleStatus :=
  if s = "draft" then some .draft
  else if s = "review" then some .review
  else if s = "approved" then some .approved
  else if s = "deprecated" then some .deprecated
  else none

/-- Workflow personas (`tarka_core.persona_auth.Persona`). -/
inductive Persona where
  | enterprise_architect
  | product_owner
  | scrum_master
  | developer
  | tester
  | release_manager
deriving DecidableEq, Repr, Fintype

/-- The wire value of a persona (Python enum `.value`). -/
def Persona.value : Persona → String
  | .enterprise_architect => "enterprise_architect"
  | .product_owner => "product_owner"
  | .scrum_master => "scrum_master"
  | .developer => "developer"
  | .tester => "tester"
  | .release_manager => "release_manager"

/-- Python `Persona(s)` constructor: parses a wire value, `none` models
the `ValueError` raised on an unknown value. -/
def Persona.ofString (s : String) : Option Persona :=
  if s = "enterprise_architect" then some .enterprise_architect
  else if s = "product_owner" then some .product_owner
  else if s = "scrum_master" then some .scrum_master
  else if s = "developer" then some .developer
  else if s = "tester" then some .tester
  else if s = "release_manager" then some .release_manager
  else none

/-- Requirement node types (`models.RequirementType`). -/
inductive RequirementType where
  | epic
  | component
  | feature
  | requirement
deriving DecidableEq, Repr, Fintype

/-- The wire value of a requirement type (Python enum `.value`). -/
def RequirementType.value : RequirementType → String
  | .epic => "epic"
  | .component => "component"
  | .feature => "feature"
  | .requirement => "requirement"

/-- Organization membership roles (`models.MemberRole`). -/
inductive MemberRole where
  | viewer
  | member
  | admin
  | owner
deriving DecidableEq, Repr, Fintype

/-- The wire value of an organization role (Python enum `.value`). -/
def MemberRole.value : MemberRole → String
  | .viewer => "viewer"
  | .member => "member"
  | .admin => "admin"
  | .owner => "owner"

/-- Project membership roles (`models.ProjectRole`). -/
inductive ProjectRole where
  | viewer
  | editor
  | admin
deriving DecidableEq, Repr, Fintype

/-- The wire value of a project role (Python enum `.value`). -/
def ProjectRole.value : ProjectRole → String
  | .viewer => "viewer"
  | .editor => "editor"
  | .admin => "admin"

/-! ## Lifecycle state machine (`src/raas_core/state_machine.py`) -/

/-- Embeds `state_machine.TRANSITION_MATRIX`: maps the current status to the
list of allowed next statuses (the dict has an entry for every status,
so it is embedded as a total function). -/
def TRANSITION_MATRIX : LifecycleStatus → List LifecycleStatus
  | .draft => [.draft, .review]
  | .review => [.review, .draft, .approved, .deprecated]
  | .approved => [.approved, .draft, .review, .deprecated]
  | .deprecated => [.deprecated]

/-- Embeds `state_machine.is_transition_valid`: membership test in the
transition matrix row of the current status. -/
def is_transition_valid (current_status new_status : LifecycleStatus) : Bool :=
  (TRANSITION_MATRIX current_status).contains new_status

/-- Embeds `state_machine.get_allowed_transitions`: allowed next statuses
with the no-op self transition filtered out. -/
def get_allowed_transitions (current_status : LifecycleStatus) : List LifecycleStatus :=
  (TRANSITION_MATRIX current_status).filter (fun s => s ≠ current_status)

/-- Embeds `state_machine.StateTransitionError` payload (message string not
modelled). -/
structure StateTransitionError where
  current_status : LifecycleStatus
  requested_status : LifecycleStatus
  allowed_transitions : List LifecycleStatus
deriving DecidableEq, Repr

/-- Embeds `state_machine.validate_transition`: no-op transitions return
immediately; otherwise an invalid pair raises `StateTransitionError`
carrying current, requested and the matrix row. -/
def validate_transition (current_status new_status : LifecycleStatus) :
    Except StateTransitionError Unit :=
  if current_status = new_status then
    Except.ok ()
  else if ¬ (is_transition_valid current_status new_status) then
    Except.error
      { current_status := current_status
        requested_status := new_status
        allowed_transitions := TRANSITION_MATRIX current_status }
  else
    Except.ok ()

/-! ## Persona authorization (`src/tarka_core/persona_auth.py`)

Python dicts are modelled as assignment-ordered association lists: a
dict built by successive key assignments (and `dict.update`) is the
list of assignments, and `dictLookup` returns the value of the last
assignment to the key, exactly as the final dict state would. -/

/-- Lookup in an assignment-ordered association list: the value of the
last entry for the key (Python `dict.get`). -/
def dictLookup {α β : Type} [DecidableEq α] (entries : List (α × β)) (k : α) : Option β :=
  entries.foldl (fun acc e => if e.1 = k then some e.2 else acc) none

deriving instance DecidableEq for Except

/-- Python `str.split("->")` on the character list: non-overlapping
left-to-right matches of the two-character separator. -/
def splitArrowAux : List Char → List Char → List (List Char)
  | [], acc => [acc.reverse]
  | '-' :: '>' :: rest, acc => acc.reverse :: splitArrowAux rest []
  | c :: rest, acc => splitArrowAux rest (c :: acc)

/-- Python `key.split("->")`. -/
def pySplitArrow (s : String) : List String :=
  (splitArrowAux s.data []).map String.mk

/-- Python `str.strip()`: drop leading and trailing whitespace. -/
def pyStrip (s : String) : String :=
  String.mk (((s.data.dropWhile Char.isWhitespace).reverse.dropWhile
    Char.isWhitespace).reverse)

/-- Embeds `persona_auth.DEFAULT_TRANSITION_MATRIX` (tarka_core, the 4-state
model): maps (from_status, to_status) to the authorized personas.
Python persona sets are kept as lists in source order; only membership
is ever consulted. -/
def DEFAULT_TRANSITION_MATRIX :
    List ((LifecycleStatus × LifecycleStatus) × List Persona) :=
  [ ((.draft, .review),
      [.enterprise_architect, .product_owner, .scrum_master, .developer]),
    ((.review, .approved),
      [.enterprise_architect, .product_owner]),
    ((.review, .draft),
      [.enterprise_architect, .product_owner, .scrum_master, .developer, .tester]),
    ((.review, .deprecated),
      [.enterprise_architect, .product_owner]),
    ((.approved, .draft),
      [.enterprise_architect, .product_owner]),
    ((.approved, .review),
      [.enterprise_architect, .product_owner, .scrum_master]),
    ((.approved, .deprecated),
      [.enterprise_architect, .product_owner]) ]

/-- One loop iteration of `get_transition_matrix`'s custom-matrix
parsing: split the key on `->`, parse both statuses and every persona
name (each `.strip()`ped); any failure models the caught
`ValueError`/`KeyError` and skips the entry (`none`).  The Python set
comprehension over personas is kept as a list; only membership is ever
consulted. -/
def parse_matrix_entry (entry : String × List String) :
    Option ((LifecycleStatus × LifecycleStatus) × List Persona) :=
  match pySplitArrow entry.1 with
  | [from_str, to_str] =>
    match LifecycleStatus.ofString (pyStrip from_str),
          LifecycleStatus.ofString (pyStrip to_str),
          entry.2.mapM (fun p => Persona.ofString (pyStrip p)) with
    | some from_status, some to_status, some personas =>
        some ((from_status, to_status), personas)
    | _, _, _ => none
  | _ => none

/-- Organization settings blob: may contain a `persona_matrix`
override, a loosely-typed mapping from `"from->to"` strings to lists
of persona-name strings. -/
structure OrgSettings where
  persona_matrix : Option (List (String × List String))
deriving DecidableEq, Repr

/-- Embeds `persona_auth.get_transition_matrix`: with a `persona_matrix`
override present, each entry is parsed (invalid entries skipped) and
the result is merged over the defaults via `dict.update` — the
appended association list has exactly that lookup semantics (custom
wins per transition pair). -/
def get_transition_matrix (org_settings : Option OrgSettings) :
    List ((LifecycleStatus × LifecycleStatus) × List Persona) :=
  match org_settings with
  | some settings =>
    match settings.persona_matrix with
    | some custom_matrix =>
        DEFAULT_TRANSITION_MATRIX ++ custom_matrix.filterMap parse_matrix_entry
    | none => DEFAULT_TRANSITION_MATRIX
  | none => DEFAULT_TRANSITION_MATRIX

/-- Embeds `persona_auth.get_authorized_personas`:
`matrix.get((from, to), set())`. -/
def get_authorized_personas (from_status to_status : LifecycleStatus)
    (org_settings : Option OrgSettings) : List Persona :=
  (dictLookup (get_transition_matrix org_settings) (from_status, to_status)).getD []

/-- Embeds `persona_auth.is_persona_authorized`: same-status transitions are
always allowed, otherwise membership in the authorized set. -/
def is_persona_authorized (persona : Persona)
    (from_status to_status : LifecycleStatus)
    (org_settings : Option OrgSettings) : Bool :=
  if from_status = to_status then true
  else (get_authorized_personas from_status to_status org_settings).contains persona

/-- Embeds `persona_auth.PersonaAuthorizationError` payload (message string
not modelled; `persona` is `none` for the missing-persona error). -/
structure PersonaAuthorizationError where
  persona : Option Persona
  from_status : LifecycleStatus
  to_status : LifecycleStatus
  authorized_personas : List Persona
deriving DecidableEq, Repr

/-- Embeds `persona_auth.validate_persona_authorization`: no-op transitions
return immediately; a missing persona errors only when
`require_persona` is set and the authorized set is non-empty (Python
set truthiness); a supplied persona errors when not authorized. -/
def validate_persona_authorization (persona : Option Persona)
    (from_status to_status : LifecycleStatus)
    (org_settings : Option OrgSettings)
    (require_persona : Bool) :
    Except PersonaAuthorizationError Unit :=
  if from_status = to_status then Except.ok ()
  else
    let authorized_personas := get_authorized_personas from_status to_status org_settings
    match persona with
    | none =>
      if require_persona ∧ authorized_personas ≠ [] then
        Except.error
          { persona := none
            from_status := from_status
            to_status := to_status
            authorized_personas := authorized_personas }
      else Except.ok ()
    | some p =>
      if ¬ (is_persona_authorized p from_status to_status org_settings) then
        Except.error
          { persona := some p
            from_status := from_status
            to_status := to_status
            authorized_personas := authorized_personas }
      else Except.ok ()

/-- Embeds `persona_auth.CONTENT_EDIT_PERSONAS`: the fixed set of personas
allowed to author requirement content. -/
def CONTENT_EDIT_PERSONAS : List Persona :=
  [.enterprise_architect, .product_owner]

/-- Embeds `persona_auth.ContentEditAuthorizationError` payload (message
string not modelled). -/
structure ContentEditAuthorizationError where
  persona : Option Persona
  authorized_personas : List Persona
deriving DecidableEq, Repr

/-- Embeds `persona_auth.validate_content_edit_authorization`: a missing
persona errors only when `require_persona` is set; a supplied persona
errors when not in `CONTENT_EDIT_PERSONAS`. -/
def validate_content_edit_authorization (persona : Option Persona)
    (require_persona : Bool) :
    Except ContentEditAuthorizationError Unit :=
  match persona with
  | none =>
    if require_persona then
      Except.error { persona := none, authorized_personas := CONTENT_EDIT_PERSONAS }
    else Except.ok ()
  | some p =>
    if ¬ (p ∈ CONTENT_EDIT_PERSONAS) then
      Except.error { persona := some p, authorized_personas := CONTENT_EDIT_PERSONAS }
    else Except.ok ()

/-! ### Association-list lemmas for the dict model -/

/-! ## RBAC permission checking (`src/raas_core/permissions.py`)

Records are identified by `Nat` ids; the database session is the
explicit record store `PermsDB`, and `query(...).filter(...).first()`
is a first-match lookup. -/

/-- Embeds `models.Project` (the fields permissions.py reads). -/
structure Project where
  id : Nat
  organization_id : Nat
deriving DecidableEq, Repr

/-- Embeds `models.OrganizationMember` (the fields permissions.py reads). -/
structure OrganizationMember where
  user_id : Nat
  organization_id : Nat
  role : MemberRole
deriving DecidableEq, Repr

/-- Embeds `models.ProjectMember` (the fields permissions.py reads). -/
structure ProjectMember where
  user_id : Nat
  project_id : Nat
  role : ProjectRole
deriving DecidableEq, Repr

/-- The record store consulted by the permission checker. -/
structure PermsDB where
  projects : List Project
  organization_members : List OrganizationMember
  project_members : List ProjectMember
deriving DecidableEq, Repr

/-- Embeds `permissions.ORG_ROLE_HIERARCHY` (higher number = more rights). -/
def ORG_ROLE_HIERARCHY : MemberRole → Nat
  | .viewer => 1
  | .member => 2
  | .admin => 3
  | .owner => 4

/-- Embeds `permissions.PROJECT_ROLE_HIERARCHY`. -/
def PROJECT_ROLE_HIERARCHY : ProjectRole → Nat
  | .viewer => 1
  | .editor => 2
  | .admin => 3

/-- Embeds `permissions.get_user_org_role`: role of the first matching
organization membership, `none` when the user is not a member. -/
def get_user_org_role (db : PermsDB) (user_id organization_id : Nat) :
    Option MemberRole :=
  (db.organization_members.find? (fun m =>
    m.user_id == user_id && m.organization_id == organization_id)).map
    OrganizationMember.role

/-- Embeds `permissions.get_user_project_role`: role of the first matching
project membership, `none` when the user is not a member. -/
def get_user_project_role (db : PermsDB) (user_id project_id : Nat) :
    Option ProjectRole :=
  (db.project_members.find? (fun m =>
    m.user_id == user_id && m.project_id == project_id)).map
    ProjectMember.role

/-- Embeds `permissions.PermissionDeniedError` payload (message string not
modelled; fields default to `None` as in the Python constructor). -/
structure PermissionDeniedError where
  required_role : Option String
  current_role : Option String
  resource_type : Option String
deriving DecidableEq, Repr

/-- Embeds `permissions.check_org_permission`: missing membership and
insufficient role both raise `PermissionDeniedError` with required
role, current role (or none) and resource type. -/
def check_org_permission (db : PermsDB) (user_id organization_id : Nat)
    (min_role : MemberRole) (operation : String) :
    Except PermissionDeniedError Unit :=
  match get_user_org_role db user_id organization_id with
  | none =>
    Except.error
      { required_role := some min_role.value
        current_role := none
        resource_type := some "organization" }
  | some user_role =>
    if ORG_ROLE_HIERARCHY user_role < ORG_ROLE_HIERARCHY min_role then
      Except.error
        { required_role := some min_role.value
          current_role := some user_role.value
          resource_type := some "organization" }
    else Except.ok ()

/-- Embeds `permissions.check_project_permission`: resolves the project, then
the project membership; with no project membership, org admins and
owners pass implicitly, any other org role (or none) is denied; with a
project membership, the role must reach the minimum. -/
def check_project_permission (db : PermsDB) (user_id project_id : Nat)
    (min_role : ProjectRole) (operation : String) :
    Except PermissionDeniedError Unit :=
  match db.projects.find? (fun p => p.id == project_id) with
  | none =>
    Except.error
      { required_role := none, current_role := none, resource_type := some "project" }
  | some project =>
    match get_user_project_role db user_id project_id with
    | none =>
      let user_org_role := get_user_org_role db user_id project.organization_id
      if user_org_role = some .admin ∨ user_org_role = some .owner then
        Except.ok ()
      else
        Except.error
          { required_role := some min_role.value
            current_role := none
            resource_type := some "project" }
    | some user_project_role =>
      if PROJECT_ROLE_HIERARCHY user_project_role < PROJECT_ROLE_HIERARCHY min_role then
        Except.error
          { required_role := some min_role.value
            current_role := some user_project_role.value
            resource_type := some "project" }
      else Except.ok ()

/-! ## Versioning engine (`src/raas_core/versioning.py`) -/

/-- Embeds `models.Requirement` (the fields read or written by the versioning
engine and the hierarchy validator). -/
structure Requirement where
  id : Nat
  type : RequirementType
  parent_id : Option Nat
  project_id : Nat
  title : String
  description : Option String
  status : LifecycleStatus
  content_hash : Option String
  current_version_id : Option Nat
  deployed_version_id : Option Nat
deriving DecidableEq, Repr

/-- Embeds `models.RequirementVersion`: immutable content snapshot row. -/
structure RequirementVersion where
  id : Nat
  requirement_id : Nat
  version_number : Nat
  content : String
  content_hash : String
  title : String
  description : Option String
  source_work_item_id : Option Nat
  change_reason : Option String
  created_by_user_id : Option Nat
deriving DecidableEq, Repr

/-- The version store: the existing `RequirementVersion` rows plus the
id the next `flush` will assign to an inserted row. -/
structure VersionDB where
  versions : List RequirementVersion
  next_id : Nat
deriving DecidableEq, Repr

/-- Embeds `versioning.compute_content_hash`: the SHA-256 digest used for
conflict detection.  The digest is modelled as an injective
fingerprint of the content — collision freedom is the design
assumption underlying every hash comparison in the module — so it is
embedded as the content itself. -/
def compute_content_hash (content : String) : String :=
  content

/-- Embeds `versioning.get_next_version_number`: SQL `max(version_number)`
over the requirement's versions (`None`, i.e. 0, when there are no
rows) plus one. -/
def get_next_version_number (db : VersionDB) (requirement_id : Nat) : Nat :=
  ((db.versions.filter (fun v => v.requirement_id == requirement_id)).map
    RequirementVersion.version_number).foldl max 0 + 1

/-- Embeds `versioning.create_requirement_version`: computes the content
hash, takes the next version number, inserts the immutable snapshot
row, and updates the requirement's cached `content_hash` — but not its
`current_version_id`.  Returns the created version together with the
updated store and requirement. -/
def create_requirement_version (db : VersionDB) (requirement : Requirement)
    (content : String) (user_id source_work_item_id : Option Nat)
    (change_reason : Option String) :
    RequirementVersion × VersionDB × Requirement :=
  let content_hash := compute_content_hash content
  let version_number := get_next_version_number db requirement.id
  let version : RequirementVersion :=
    { id := db.next_id
      requirement_id := requirement.id
      version_number := version_number
      content := content
      content_hash := content_hash
      title := requirement.title
      description := requirement.description
      source_work_item_id := source_work_item_id
      change_reason := change_reason
      created_by_user_id := user_id }
  (version,
   { versions := db.versions ++ [version], next_id := db.next_id + 1 },
   { requirement with content_hash := some content_hash })

/-- Embeds `versioning.should_regress_to_draft`: true exactly when the
requirement's status is in `[APPROVED, REVIEW]`. -/
def should_regress_to_draft (requirement : Requirement) : Bool :=
  [LifecycleStatus.approved, LifecycleStatus.review].contains requirement.status

/-- Embeds `versioning.content_has_changed`: a missing old content always
counts as changed; otherwise the content digests are compared. -/
def content_has_changed (old_content : Option String) (new_content : String) : Bool :=
  match old_content with
  | none => true
  | some old => compute_content_hash old != compute_content_hash new_content

/-! ### Versioning lemmas -/

/-! ## Hierarchy validation (`src/raas_core/hierarchy_validation.py`) -/

/-- The requirement record store consulted for parent lookups. -/
structure ReqDB where
  requirements : List Requirement
deriving DecidableEq, Repr

/-- Embeds `hierarchy_validation.VALID_PARENT_TYPES`: canonical required
parent type per child type (`none` for epics). -/
def VALID_PARENT_TYPES : RequirementType → Option RequirementType
  | .epic => none
  | .component => some .epic
  | .feature => some .component
  | .requirement => some .feature

/-- Embeds `hierarchy_validation.HierarchyValidationError` payload (message
string not modelled; optional fields default to `None` as in the
Python constructor). -/
structure HierarchyValidationError where
  child_type : RequirementType
  expected_parent_type : Option RequirementType
  actual_parent_type : Option RequirementType
  parent_id : Option Nat
  parent_title : Option String
deriving DecidableEq, Repr

/-- The two failure modes of `validate_parent_type`: the structured
`HierarchyValidationError`, or the `ValueError` raised when the
supplied parent id matches no record (the distinct 404 case). -/
inductive ParentValidationFailure where
  | hierarchy (e : HierarchyValidationError)
  | notFound (parent_id : Nat)
deriving DecidableEq, Repr

/-- Embeds `hierarchy_validation.validate_parent_type`: epics must have no
parent; non-epics must have one; a supplied parent must exist (else
the 404 `ValueError`) and must have exactly the canonical expected
type (else a structured violation carrying child type, expected and
actual parent types, parent id and parent title). -/
def validate_parent_type (db : ReqDB) (child_type : RequirementType)
    (parent_id : Option Nat) : Except ParentValidationFailure Unit :=
  let expected_parent_type := VALID_PARENT_TYPES child_type
  if child_type = .epic then
    match parent_id with
    | some pid =>
      Except.error (.hierarchy
        { child_type := child_type
          expected_parent_type := none
          actual_parent_type := none
          parent_id := some pid
          parent_title := none })
    | none => Except.ok ()
  else
    match parent_id with
    | none =>
      Except.error (.hierarchy
        { child_type := child_type
          expected_parent_type := expected_parent_type
          actual_parent_type := none
          parent_id := none
          parent_title := none })
    | some pid =>
      match db.requirements.find? (fun r => r.id == pid) with
      | none => Except.error (.notFound pid)
      | some parent =>
        if some parent.type ≠ expected_parent_type then
          Except.error (.hierarchy
            { child_type := child_type
              expected_parent_type := expected_parent_type
              actual_parent_type := some parent.type
              parent_id := some pid
              parent_title := some parent.title })
        else Except.ok ()

/-! ## Content-change detection over snapshots (C1)

`content_has_changed` compares digests of the *stored* content, which
the write path produces by stripping the operational metadata from the
parsed snapshot before hashing.  The stripping/serialization lives in
`tarka_core.markdown_utils` (`strip_system_fields_from_frontmatter`),
which is not among the analysed sources, so it is modelled from the
spec below. -/

/-- Modelled from the spec: a parsed requirement snapshot as read by
the missing `tarka_core.markdown_utils` — the authored versionable fields
(title, body, dependency list, parent linkage, adherence links)
together with the operational metadata (tags) and the system-managed
status that are excluded from versioned content. -/
structure Snapshot where
  title : String
  body : String
  depends_on : List String
  parent_id : Option String
  adheres_to : List String
  tags : List String
  status : LifecycleStatus
deriving DecidableEq, Repr

/-- One length-prefixed chunk of the unambiguous rendering. -/
def encChunk (s : List Char) : List Char :=
  List.replicate s.length 'L' ++ 'D' :: s

/-- Concatenation of length-prefixed chunks. -/
def encodeFields : List (List Char) → List Char
  | [] => []
  | s :: rest => encChunk s ++ encodeFields rest

/-- A list of strings as a count chunk followed by element chunks. -/
def encodeStrList (l : List String) : List (List Char) :=
  List.replicate l.length 'C' :: l.map String.data

/-- An optional string as a tagged chunk. -/
def encodeOptStr : Option String → List Char
  | none => ['N']
  | some p => 'S' :: p.data

/-- Modelled from the spec: `strip_system_fields_from_frontmatter`
composed with the frontmatter serializer — renders exactly the
versionable fields (title, body, depends_on, parent linkage,
adheres_to) into the stored content string, dropping tags and the
system-managed status.  The rendering is an unambiguous
(length-prefixed) encoding, modelling the injectivity of the real
frontmatter serialization. -/
def cleaned_content (s : Snapshot) : String :=
  String.mk (encodeFields
    ([s.title.data, s.body.data, encodeOptStr s.parent_id] ++
      encodeStrList s.depends_on ++ encodeStrList s.adheres_to))

/-- Reads the unary length prefix of a chunk. -/
def readCount : List Char → Nat → Option (Nat × List Char)
  | 'L' :: cs, n => readCount cs (n + 1)
  | 'D' :: cs, n => some (n, cs)
  | _, _ => none

/-! ## Theorems -/

/-- C4: the transition predicate agrees with the specified table:
every same-status pair is valid; the non-self transitions are exactly
draft→review, review→{draft, approved, deprecated} and
approved→{draft, review, deprecated}; and `deprecated` has no outbound
non-self transitions. -/
theorem c4_transition_table :
    (∀ s t : LifecycleStatus,
      is_transition_valid s t = true ↔
        (s = t ∨
          (s, t) ∈ ([
            (.draft, .review),
            (.review, .draft), (.review, .approved), (.review, .deprecated),
            (.approved, .draft), (.approved, .review), (.approved, .deprecated)
          ] : List (LifecycleStatus × LifecycleStatus)))) ∧
    get_allowed_transitions .deprecated = [] := by
  constructor
  · intro s t
    cases s <;> cases t <;> simp [is_transition_valid, TRANSITION_MATRIX, List.contains]
  · rfl

theorem dictFoldl_elim {α β : Type} [DecidableEq α] (ys : List (α × β))
    (acc : Option β) (k : α) :
    ys.foldl (fun a e => if e.1 = k then some e.2 else a) acc =
      (dictLookup ys k).elim acc some := by
  induction ys generalizing acc with
  | nil => simp [dictLookup]
  | cons e ys ih =>
    have hcons : dictLookup (e :: ys) k =
        ys.foldl (fun a e => if e.1 = k then some e.2 else a)
          (if e.1 = k then some e.2 else none) := by
      simp [dictLookup]
    rw [List.foldl_cons, ih, hcons, ih]
    cases hys : dictLookup ys k with
    | some v => simp
    | none =>
      by_cases hk : e.1 = k <;> simp [hk]

theorem dictLookup_append {α β : Type} [DecidableEq α]
    (xs ys : List (α × β)) (k : α) :
    dictLookup (xs ++ ys) k = (dictLookup ys k).elim (dictLookup xs k) some := by
  have : dictLookup (xs ++ ys) k =
      ys.foldl (fun a e => if e.1 = k then some e.2 else a) (dictLookup xs k) := by
    simp [dictLookup, List.foldl_append]
  rw [this, dictFoldl_elim]

theorem dictLookup_eq_none_of_not_mem {α β : Type} [DecidableEq α]
    (ys : List (α × β)) (k : α) (h : k ∉ ys.map Prod.fst) :
    dictLookup ys k = none := by
  induction ys with
  | nil => rfl
  | cons e ys ih =>
    simp only [List.map_cons, List.mem_cons, not_or] at h
    have hcons : dictLookup (e :: ys) k =
        ys.foldl (fun a e => if e.1 = k then some e.2 else a)
          (if e.1 = k then some e.2 else none) := by
      simp [dictLookup]
    rw [hcons, dictFoldl_elim, ih h.2]
    have : e.1 ≠ k := fun hk => h.1 hk.symm
    simp [this]

theorem dictLookup_of_mem_nodup {α β : Type} [DecidableEq α]
    (ys : List (α × β)) (k : α) (v : β)
    (hmem : (k, v) ∈ ys) (hnd : (ys.map Prod.fst).Nodup) :
    dictLookup ys k = some v := by
  induction ys with
  | nil => cases hmem
  | cons e ys ih =>
    have hcons : dictLookup (e :: ys) k =
        ys.foldl (fun a e => if e.1 = k then some e.2 else a)
          (if e.1 = k then some e.2 else none) := by
      simp [dictLookup]
    simp only [List.map_cons, List.nodup_cons] at hnd
    rcases List.mem_cons.mp hmem with hhead | htail
    · have hnone : dictLookup ys k = none := by
        apply dictLookup_eq_none_of_not_mem
        rw [← hhead] at hnd
        exact hnd.1
      rw [hcons, dictFoldl_elim, hnone, ← hhead]
      simp
    · rw [hcons, dictFoldl_elim, ih htail hnd.2]
      simp

/-- C2: `validate_persona_authorization` succeeds on every same-status
transition (for every persona including none); it errors exactly when
the statuses differ and either the persona is absent while required
for a transition with a non-empty authorized set, or the supplied
persona is outside the authorized set; and every raised error carries
the supplied persona, the transition pair, and exactly the authorized
set of that pair. -/
theorem c2_validate_persona_authorization
    (persona : Option Persona) (f t : LifecycleStatus)
    (os : Option OrgSettings) (req : Bool) :
    (f = t → validate_persona_authorization persona f t os req = Except.ok ()) ∧
    ((∃ e, validate_persona_authorization persona f t os req = Except.error e) ↔
      (f ≠ t ∧
        ((persona = none ∧ req = true ∧ get_authorized_personas f t os ≠ []) ∨
         (∃ p, persona = some p ∧ p ∉ get_authorized_personas f t os)))) ∧
    (∀ e, validate_persona_authorization persona f t os req = Except.error e →
      e = ⟨persona, f, t, get_authorized_personas f t os⟩) := by
  by_cases hft : f = t
  · subst hft
    refine ⟨fun _ => by simp [validate_persona_authorization], ?_, ?_⟩
    · simp [validate_persona_authorization]
    · intro e he
      simp [validate_persona_authorization] at he
  · cases persona with
    | none =>
      by_cases hcond : req = true ∧ get_authorized_personas f t os ≠ []
      · have hrun : validate_persona_authorization none f t os req =
            Except.error ⟨none, f, t, get_authorized_personas f t os⟩ := by
          simp [validate_persona_authorization, hft, hcond]
        refine ⟨fun h => absurd h hft, ?_, ?_⟩
        · constructor
          · intro _
            exact ⟨hft, Or.inl ⟨rfl, hcond.1, hcond.2⟩⟩
          · intro _
            exact ⟨_, hrun⟩
        · intro e he
          rw [hrun] at he
          exact (Except.error.inj he).symm
      · have hrun : validate_persona_authorization none f t os req =
            Except.ok () := by
          simp only [validate_persona_authorization, if_neg hft]
          rw [if_neg hcond]
        refine ⟨fun h => absurd h hft, ?_, ?_⟩
        · constructor
          · rintro ⟨e, he⟩
            rw [hrun] at he
            exact Except.noConfusion he
          · rintro ⟨-, hcase | ⟨p, hp, -⟩⟩
            · exact absurd ⟨hcase.2.1, hcase.2.2⟩ hcond
            · exact Option.noConfusion hp
        · intro e he
          rw [hrun] at he
          exact Except.noConfusion he
    | some p =>
      by_cases hauth : p ∈ get_authorized_personas f t os
      · have hrun : validate_persona_authorization (some p) f t os req =
            Except.ok () := by
          simp [validate_persona_authorization, is_persona_authorized, hft, hauth]
        refine ⟨fun h => absurd h hft, ?_, ?_⟩
        · constructor
          · rintro ⟨e, he⟩
            rw [hrun] at he
            exact Except.noConfusion he
          · rintro ⟨-, hcase | ⟨q, hq, hnq⟩⟩
            · exact Option.noConfusion hcase.1
            · exact absurd ((Option.some.inj hq) ▸ hauth) hnq
        · intro e he
          rw [hrun] at he
          exact Except.noConfusion he
      · have hrun : validate_persona_authorization (some p) f t os req =
            Except.error ⟨some p, f, t, get_authorized_personas f t os⟩ := by
          simp [validate_persona_authorization, is_persona_authorized, hft, hauth]
        refine ⟨fun h => absurd h hft, ?_, ?_⟩
        · constructor
          · intro _
            exact ⟨hft, Or.inr ⟨p, rfl, hauth⟩⟩
          · intro _
            exact ⟨_, hrun⟩
        · intro e he
          rw [hrun] at he
          exact (Except.error.inj he).symm

/-- C2 witness: a same-status transition passes for a concrete persona
under the default matrix. -/
theorem c2_witness :
    validate_persona_authorization (some .tester) .review .review none true =
      Except.ok () :=
  (c2_validate_persona_authorization (some .tester) .review .review none true).1 rfl

/-- C3: merging an organization override over the default matrix: for
every override whose well-formed entries name pairwise distinct
transition pairs, each such pair maps to exactly the override's
persona set (full replacement), every unmentioned pair keeps its
built-in default, and malformed entries are skipped without affecting
the rest (the merged matrix is built from the well-formed entries
only, appended after the defaults). -/
theorem c3_override_merge (custom : List (String × List String))
    (hnd : ((custom.filterMap parse_matrix_entry).map Prod.fst).Nodup) :
    (∀ k ps, (k, ps) ∈ custom.filterMap parse_matrix_entry →
        dictLookup (get_transition_matrix (some ⟨some custom⟩)) k = some ps) ∧
    (∀ k, k ∉ (custom.filterMap parse_matrix_entry).map Prod.fst →
        dictLookup (get_transition_matrix (some ⟨some custom⟩)) k =
          dictLookup DEFAULT_TRANSITION_MATRIX k) ∧
    get_transition_matrix (some ⟨some custom⟩) =
      DEFAULT_TRANSITION_MATRIX ++ custom.filterMap parse_matrix_entry := by
  refine ⟨?_, ?_, rfl⟩
  · intro k ps hmem
    have hcustom : dictLookup (custom.filterMap parse_matrix_entry) k = some ps :=
      dictLookup_of_mem_nodup _ k ps hmem hnd
    show dictLookup
      (DEFAULT_TRANSITION_MATRIX ++ custom.filterMap parse_matrix_entry) k = some ps
    rw [dictLookup_append, hcustom]
    rfl
  · intro k hk
    have hcustom : dictLookup (custom.filterMap parse_matrix_entry) k = none :=
      dictLookup_eq_none_of_not_mem _ k hk
    show dictLookup
        (DEFAULT_TRANSITION_MATRIX ++ custom.filterMap parse_matrix_entry) k =
      dictLookup DEFAULT_TRANSITION_MATRIX k
    rw [dictLookup_append, hcustom]
    rfl

/-- C3 witness: the one-entry override `{"draft->review": ["developer"]}`
yields exactly `{developer}` for (draft, review) and keeps the default
set for (review, approved). -/
theorem c3_witness :
    dictLookup (get_transition_matrix (some ⟨some [("draft->review", ["developer"])]⟩))
        (LifecycleStatus.draft, LifecycleStatus.review) = some [.developer] ∧
    dictLookup (get_transition_matrix (some ⟨some [("draft->review", ["developer"])]⟩))
        (LifecycleStatus.review, LifecycleStatus.approved) =
      dictLookup DEFAULT_TRANSITION_MATRIX
        (LifecycleStatus.review, LifecycleStatus.approved) := by
  constructor
  · exact (c3_override_merge [("draft->review", ["developer"])] (by decide)).1
      (.draft, .review) [.developer] (by decide)
  · exact (c3_override_merge [("draft->review", ["developer"])] (by decide)).2.1
      (.review, .approved) (by decide)

/-- C5: content-edit authorization passes exactly for the enterprise
architect and product owner personas; every other persona, and a
missing persona when one is required, raises an error listing exactly
that fixed authorized set.  The check takes no organization settings,
so no override can alter it. -/
theorem c5_content_edit_authorization :
    (∀ req : Bool,
      validate_content_edit_authorization (some .enterprise_architect) req =
        Except.ok () ∧
      validate_content_edit_authorization (some .product_owner) req =
        Except.ok ()) ∧
    (∀ (req : Bool) (p : Persona),
      p ≠ .enterprise_architect → p ≠ .product_owner →
      validate_content_edit_authorization (some p) req =
        Except.error ⟨some p, CONTENT_EDIT_PERSONAS⟩) ∧
    validate_content_edit_authorization none true =
      Except.error ⟨none, CONTENT_EDIT_PERSONAS⟩ := by
  refine ⟨fun req => ⟨rfl, rfl⟩, ?_, rfl⟩
  intro req p h1 h2
  cases p <;> first
    | exact absurd rfl h1
    | exact absurd rfl h2
    | rfl

/-- C5 witness: the developer persona is rejected for content editing
with the fixed authorized set enumerated. -/
theorem c5_witness :
    Persona.developer ≠ Persona.enterprise_architect ∧
    Persona.developer ≠ Persona.product_owner ∧
    validate_content_edit_authorization (some .developer) true =
      Except.error ⟨some .developer, CONTENT_EDIT_PERSONAS⟩ :=
  ⟨by decide, by decide,
    c5_content_edit_authorization.2.1 true .developer (by decide) (by decide)⟩

/-- C6: a user with no project membership record whose organization
role in the project's owning organization is admin or owner passes
`check_project_permission` for every minimum project role. -/
theorem c6_org_admin_project_fallback (db : PermsDB)
    (user_id project_id : Nat) (min_role : ProjectRole) (operation : String)
    (project : Project)
    (hproj : db.projects.find? (fun p => p.id == project_id) = some project)
    (hnomem : get_user_project_role db user_id project_id = none)
    (horg : get_user_org_role db user_id project.organization_id = some .admin ∨
            get_user_org_role db user_id project.organization_id = some .owner) :
    check_project_permission db user_id project_id min_role operation =
      Except.ok () := by
  unfold check_project_permission
  rw [hproj]
  show (match get_user_project_role db user_id project_id with
    | none => _
    | some user_project_role => _) = Except.ok ()
  rw [hnomem]
  simp only []
  rw [if_pos horg]

/-- C6 witness: user 5 is an org admin with no project membership and
passes a project-admin-level check on project 1. -/
theorem c6_witness :
    check_project_permission
      ⟨[⟨1, 10⟩], [⟨5, 10, .admin⟩], []⟩ 5 1 .admin "delete project" =
      Except.ok () :=
  c6_org_admin_project_fallback ⟨[⟨1, 10⟩], [⟨5, 10, .admin⟩], []⟩ 5 1 .admin
    "delete project" ⟨1, 10⟩ (by decide) (by decide) (Or.inl (by decide))

/-- C10: an explicit project membership shadows the organization-role
fallback — whenever the user holds a project membership whose role is
below the required minimum, `check_project_permission` denies, for
every database state (in particular even when the user is an org admin
or owner of the owning organization). -/
theorem c10_project_membership_shadows_org_role (db : PermsDB)
    (user_id project_id : Nat) (min_role : ProjectRole) (operation : String)
    (project : Project) (r : ProjectRole)
    (hproj : db.projects.find? (fun p => p.id == project_id) = some project)
    (hmem : get_user_project_role db user_id project_id = some r)
    (hlt : PROJECT_ROLE_HIERARCHY r < PROJECT_ROLE_HIERARCHY min_role) :
    check_project_permission db user_id project_id min_role operation =
      Except.error
        { required_role := some min_role.value
          current_role := some r.value
          resource_type := some "project" } := by
  unfold check_project_permission
  rw [hproj]
  show (match get_user_project_role db user_id project_id with
    | none => _
    | some user_project_role => _) =
    Except.error _
  rw [hmem]
  simp only []
  rw [if_pos hlt]

/-- C10 witness: user 5 is an org owner but only a project viewer;
a project-admin-level check is denied with the structured error. -/
theorem c10_witness :
    check_project_permission
      ⟨[⟨1, 10⟩], [⟨5, 10, .owner⟩], [⟨5, 1, .viewer⟩]⟩ 5 1 .admin "delete project" =
      Except.error
        { required_role := some "admin"
          current_role := some "viewer"
          resource_type := some "project" } :=
  c10_project_membership_shadows_org_role
    ⟨[⟨1, 10⟩], [⟨5, 10, .owner⟩], [⟨5, 1, .viewer⟩]⟩ 5 1 .admin "delete project"
    ⟨1, 10⟩ .viewer (by decide) (by decide) (by decide)

theorem get_next_version_number_append_fresh (db : VersionDB) (n' : Nat)
    (rid : Nat) (v : RequirementVersion)
    (hv : v.requirement_id = rid)
    (hn : v.version_number = get_next_version_number db rid) :
    get_next_version_number ⟨db.versions ++ [v], n'⟩ rid =
      get_next_version_number db rid + 1 := by
  unfold get_next_version_number at *
  rw [List.filter_append, List.map_append, List.foldl_append]
  have hfv : List.filter (fun v => v.requirement_id == rid) [v] = [v] := by
    simp [List.filter, hv]
  rw [hfv]
  simp only [List.map_cons, List.map_nil, List.foldl_cons, List.foldl_nil, hn]
  omega

/-- C8: `should_regress_to_draft` holds exactly for requirements whose
current status is review or approved. -/
theorem c8_should_regress_to_draft (req : Requirement) :
    should_regress_to_draft req = true ↔
      (req.status = .review ∨ req.status = .approved) := by
  cases hs : req.status <;>
    simp [should_regress_to_draft, hs]

/-- C7: `create_requirement_version` assigns version number 1 when the
requirement has no prior versions and the maximum existing number plus
one otherwise; a second sequential call for the same requirement never
repeats the first call's number; the updated requirement's
`content_hash` is the digest of the snapshotted content while its
`current_version_id` is untouched. -/
theorem c7_create_requirement_version (db : VersionDB) (req : Requirement)
    (c1 c2 : String) (u1 s1 u2 s2 : Option Nat) (r1 r2 : Option String) :
    (db.versions.filter (fun v => v.requirement_id == req.id) = [] →
      (create_requirement_version db req c1 u1 s1 r1).1.version_number = 1) ∧
    ((create_requirement_version db req c1 u1 s1 r1).1.version_number =
      ((db.versions.filter (fun v => v.requirement_id == req.id)).map
        RequirementVersion.version_number).foldl max 0 + 1) ∧
    ((create_requirement_version
        (create_requirement_version db req c1 u1 s1 r1).2.1
        (create_requirement_version db req c1 u1 s1 r1).2.2
        c2 u2 s2 r2).1.version_number ≠
      (create_requirement_version db req c1 u1 s1 r1).1.version_number) ∧
    ((create_requirement_version db req c1 u1 s1 r1).2.2.content_hash =
      some (compute_content_hash c1)) ∧
    ((create_requirement_version db req c1 u1 s1 r1).2.2.current_version_id =
      req.current_version_id) := by
  refine ⟨?_, rfl, ?_, rfl, rfl⟩
  · intro hempty
    show get_next_version_number db req.id = 1
    unfold get_next_version_number
    rw [hempty]
    rfl
  · show get_next_version_number
        ⟨db.versions ++ [_], db.next_id + 1⟩ req.id ≠
      get_next_version_number db req.id
    rw [get_next_version_number_append_fresh db (db.next_id + 1) req.id _ rfl rfl]
    omega

/-- C7 witness: starting from an empty store, the first version of
requirement 7 gets number 1 (and the second call then differs). -/
theorem c7_witness :
    (create_requirement_version ⟨[], 0⟩
      ⟨7, .feature, some 3, 1, "T", none, .draft, none, none, none⟩
      "body" none none none).1.version_number = 1 :=
  (c7_create_requirement_version ⟨[], 0⟩
    ⟨7, .feature, some 3, 1, "T", none, .draft, none, none, none⟩
    "body" "b2" none none none none none none).1 rfl

/-- C9: epics are rejected with any parent and accepted with none;
non-epic children with no parent get a violation naming the (always
present) required parent type; a found parent of the wrong type gets a
structured violation carrying child type, expected type, actual type,
parent id and parent title; and a parent id matching no record gets
the distinct not-found failure instead. -/
theorem c9_validate_parent_type (db : ReqDB) :
    (∀ pid : Nat, validate_parent_type db .epic (some pid) =
      Except.error (.hierarchy
        ⟨.epic, none, none, some pid, none⟩)) ∧
    (validate_parent_type db .epic none = Except.ok ()) ∧
    (∀ t : RequirementType, t ≠ .epic →
      validate_parent_type db t none =
        Except.error (.hierarchy ⟨t, VALID_PARENT_TYPES t, none, none, none⟩) ∧
      VALID_PARENT_TYPES t ≠ none) ∧
    (∀ (t : RequirementType) (pid : Nat) (parent : Requirement),
      t ≠ .epic →
      db.requirements.find? (fun r => r.id == pid) = some parent →
      some parent.type ≠ VALID_PARENT_TYPES t →
      validate_parent_type db t (some pid) =
        Except.error (.hierarchy
          ⟨t, VALID_PARENT_TYPES t, some parent.type, some pid, some parent.title⟩)) ∧
    (∀ (t : RequirementType) (pid : Nat),
      t ≠ .epic →
      db.requirements.find? (fun r => r.id == pid) = none →
      validate_parent_type db t (some pid) =
        Except.error (.notFound pid)) := by
  refine ⟨fun pid => rfl, rfl, ?_, ?_, ?_⟩
  · intro t ht
    constructor
    · unfold validate_parent_type
      rw [if_neg ht]
    · cases t <;> simp_all [VALID_PARENT_TYPES]
  · intro t pid parent ht hfind hmismatch
    unfold validate_parent_type
    rw [if_neg ht]
    show (match db.requirements.find? (fun r => r.id == pid) with
      | none => _
      | some parent => _) = Except.error _
    rw [hfind]
    simp only []
    rw [if_pos hmismatch]
  · intro t pid ht hfind
    unfold validate_parent_type
    rw [if_neg ht]
    show (match db.requirements.find? (fun r => r.id == pid) with
      | none => _
      | some parent => _) = Except.error _
    rw [hfind]

/-- C9 witness: a feature whose named parent (id 3) is an epic rather
than a component gets the structured violation, and a feature pointing
at the absent id 4 gets the not-found failure. -/
theorem c9_witness :
    validate_parent_type
      ⟨[⟨3, .epic, none, 1, "Top", none, .draft, none, none, none⟩]⟩
      .feature (some 3) =
      Except.error (.hierarchy
        ⟨.feature, some .component, some .epic, some 3, some "Top"⟩) ∧
    validate_parent_type
      ⟨[⟨3, .epic, none, 1, "Top", none, .draft, none, none, none⟩]⟩
      .feature (some 4) =
      Except.error (.notFound 4) :=
  ⟨(c9_validate_parent_type
      ⟨[⟨3, .epic, none, 1, "Top", none, .draft, none, none, none⟩]⟩).2.2.2.1
      .feature 3 ⟨3, .epic, none, 1, "Top", none, .draft, none, none, none⟩
      (by decide) (by decide) (by decide),
   (c9_validate_parent_type
      ⟨[⟨3, .epic, none, 1, "Top", none, .draft, none, none, none⟩]⟩).2.2.2.2
      .feature 4 (by decide) (by decide)⟩

theorem readCount_replicate (k : Nat) (s : List Char) (n : Nat) :
    readCount (List.replicate k 'L' ++ 'D' :: s) n = some (n + k, s) := by
  induction k generalizing n with
  | zero => simp [readCount]
  | succ k ih =>
    rw [List.replicate_succ, List.cons_append]
    show readCount (List.replicate k 'L' ++ 'D' :: s) (n + 1) = _
    rw [ih]
    have harith : n + 1 + k = n + (k + 1) := by omega
    rw [harith]

theorem readCount_encChunk (s rest : List Char) :
    readCount (encChunk s ++ rest) 0 = some (s.length, s ++ rest) := by
  unfold encChunk
  rw [List.append_assoc, List.cons_append, readCount_replicate]
  rw [Nat.zero_add]

theorem encodeFields_inj : ∀ l1 l2 : List (List Char),
    encodeFields l1 = encodeFields l2 → l1 = l2 := by
  intro l1
  induction l1 with
  | nil =>
    intro l2 h
    cases l2 with
    | nil => rfl
    | cons b l2 =>
      exfalso
      have h2 : readCount (encodeFields (b :: l2)) 0 =
          some (b.length, b ++ encodeFields l2) := readCount_encChunk b _
      rw [← h] at h2
      exact Option.noConfusion h2
  | cons a l1 ih =>
    intro l2 h
    cases l2 with
    | nil =>
      exfalso
      have h2 : readCount (encodeFields (a :: l1)) 0 =
          some (a.length, a ++ encodeFields l1) := readCount_encChunk a _
      rw [h] at h2
      exact Option.noConfusion h2
    | cons b l2 =>
      have ha : readCount (encodeFields (a :: l1)) 0 =
          some (a.length, a ++ encodeFields l1) := readCount_encChunk a _
      have hb : readCount (encodeFields (b :: l2)) 0 =
          some (b.length, b ++ encodeFields l2) := readCount_encChunk b _
      rw [h, hb] at ha
      simp only [Option.some.injEq, Prod.mk.injEq] at ha
      obtain ⟨hab, henc⟩ := List.append_inj ha.2.symm ha.1.symm
      rw [hab, ih l2 henc]

theorem stringDataInj {s t : String} (h : s.data = t.data) : s = t := by
  cases s
  cases t
  exact congrArg String.mk h

theorem encodeStrList_append_inj (l1 l2 : List String)
    (r1 r2 : List (List Char))
    (h : encodeStrList l1 ++ r1 = encodeStrList l2 ++ r2) :
    l1 = l2 ∧ r1 = r2 := by
  unfold encodeStrList at h
  rw [List.cons_append, List.cons_append] at h
  injection h with hhead htail
  have hlen : l1.length = l2.length := by
    have hl := congrArg List.length hhead
    simpa using hl
  have hmap := List.append_inj htail (by simp [hlen])
  refine ⟨?_, hmap.2⟩
  exact List.map_injective_iff.mpr (fun a b hab => stringDataInj hab) hmap.1

theorem encodeOptStr_inj {o1 o2 : Option String}
    (h : encodeOptStr o1 = encodeOptStr o2) : o1 = o2 := by
  cases o1 with
  | none =>
    cases o2 with
    | none => rfl
    | some p =>
      exfalso
      unfold encodeOptStr at h
      injection h with hc _
      exact absurd hc (by decide)
  | some p =>
    cases o2 with
    | none =>
      exfalso
      unfold encodeOptStr at h
      injection h with hc _
      exact absurd hc (by decide)
    | some q =>
      unfold encodeOptStr at h
      injection h with _ hd
      rw [stringDataInj hd]

theorem cleaned_content_inj (s1 s2 : Snapshot)
    (h : cleaned_content s1 = cleaned_content s2) :
    s1.title = s2.title ∧ s1.body = s2.body ∧
    s1.depends_on = s2.depends_on ∧ s1.parent_id = s2.parent_id ∧
    s1.adheres_to = s2.adheres_to := by
  unfold cleaned_content at h
  injection h with hdata
  have hfields := encodeFields_inj _ _ hdata
  simp only [List.append_assoc, List.cons_append, List.nil_append] at hfields
  injection hfields with h1 hrest
  injection hrest with h2 hrest
  injection hrest with h3 hrest
  have hdep := encodeStrList_append_inj _ _ _ _ hrest
  have hadh : s1.adheres_to = s2.adheres_to := by
    have hsub := encodeStrList_append_inj s1.adheres_to s2.adheres_to [] []
      (by rw [List.append_nil, List.append_nil]; exact hdep.2)
    exact hsub.1
  exact ⟨stringDataInj h1, stringDataInj h2, hdep.1, encodeOptStr_inj h3, hadh⟩

/-- C1: over stripped snapshots, `content_has_changed` detects a
change exactly when a versionable field (title, body, dependency list,
parent linkage, adherence links) differs — in particular it is false
when only tags or only status differ, and true whenever a versionable
field differs, even if tags or status change simultaneously. -/
theorem c1_content_change_iff_versionable_diff (s1 s2 : Snapshot) :
    content_has_changed (some (cleaned_content s1)) (cleaned_content s2) = true ↔
      (s1.title ≠ s2.title ∨ s1.body ≠ s2.body ∨
       s1.depends_on ≠ s2.depends_on ∨ s1.parent_id ≠ s2.parent_id ∨
       s1.adheres_to ≠ s2.adheres_to) := by
  show (compute_content_hash (cleaned_content s1) !=
      compute_content_hash (cleaned_content s2)) = true ↔ _
  rw [bne_iff_ne]
  unfold compute_content_hash
  constructor
  · intro hne
    by_contra hall
    push_neg at hall
    obtain ⟨ht, hb, hd, hp, ha⟩ := hall
    apply hne
    unfold cleaned_content
    rw [ht, hb, hd, hp, ha]
  · intro hdiff heq
    have hfields := cleaned_content_inj s1 s2 heq
    rcases hdiff with hx | hx | hx | hx | hx
    exacts [hx hfields.1, hx hfields.2.1, hx hfields.2.2.1,
      hx hfields.2.2.2.1, hx hfields.2.2.2.2]
